import Mathlib

/-!
Shallow embedding of the training-decision core of the Uma-Musume
auto-train bot, translated from `src/core/Ura/training_handling.py`,
`src/core/Ura/logic.py` and `src/core/Unity/training_handling.py`.

Modelling conventions:
* Python dicts keyed by stat names become association lists
  `List (String × _)`; `d.get(k, default)` becomes
  `(l.lookup k).getD default`.  Python dict keys are unique, so theorems
  that need uniqueness carry a `Nodup` hypothesis on the key list.
* Python `float` scores become `ℚ`; `round(x, 2)` becomes `round2`.
* Defensive `v.get('failure', 100)` / `v.get('score', 0)` accesses are
  mirrored by `Option` fields with the same defaults.
* I/O (screenshots, pytesseract OCR) is modelled by passing the values
  the external calls would produce as explicit inputs.
-/

/-- One value of the `training_results` dict: the per-stat record built by
`check_training`.  `choose_best_training` reads it only through
`v.get('failure', 100)` and `v.get('score', 0)`, hence the `Option` fields. -/
structure TrainData where
  failure : Option Int
  score : Option ℚ
deriving DecidableEq, Repr

/-- Accessor mirroring `v.get('failure', 100)`. -/
def TrainData.failureD (d : TrainData) : Int := d.failure.getD 100

/-- Accessor mirroring `v.get('score', 0)`. -/
def TrainData.scoreD (d : TrainData) : ℚ := d.score.getD 0

/-- Type of `training_results`: dict stat-name → record. -/
abbrev TrainResults := List (String × TrainData)

/-- Type of `current_stats` and `STAT_CAPS`: dict stat-name → int. -/
abbrev StatMap := List (String × Int)

/-- The `min_score` entry of the config: either a bare number (legacy) or a
per-stat table, as distinguished by `isinstance(min_score_config, (int, float))`. -/
inductive MinScoreCfg where
  | num (q : ℚ)
  | table (m : List (String × ℚ))
deriving DecidableEq

/-- The fields of the `config` dict that `choose_best_training` reads,
each `none` when the key is absent (the code supplies the default via
`config.get`). -/
structure TrainConfig where
  maximum_failure : Option Int := none
  min_score : Option MinScoreCfg := none
  min_wit_score : Option ℚ := none
  priority_stat : Option (List String) := none

namespace Ura

/-- Translation of `src/core/Ura/logic.py`, `filter_by_stat_caps(results, current_stats)`.
`stat_caps` stands for the module-global `STAT_CAPS` read from the main
config; `current_stats.get(stat, 0)` and `STAT_CAPS.get(stat, 1200)` keep
their defaults. -/
def filter_by_stat_caps (stat_caps : StatMap) (results : TrainResults)
    (current_stats : StatMap) : TrainResults :=
  results.filter fun p =>
    decide ((current_stats.lookup p.1).getD 0 < (stat_caps.lookup p.1).getD 1200)

/-- The `min_scores` dict built at the top of `choose_best_training`:
legacy numeric `min_score` is expanded to all five stats (with the
`min_wit_score` override), then each of the five stats gets
`min_score_config.get(stat, 1.0)`. -/
def min_scores (config : TrainConfig) : List (String × ℚ) :=
  let min_score_config : List (String × ℚ) :=
    match config.min_score.getD (.table []) with
    | .num default_score =>
        match config.min_wit_score with
        | some w => [("spd", default_score), ("sta", default_score),
                     ("pwr", default_score), ("guts", default_score), ("wit", w)]
        | none => [("spd", default_score), ("sta", default_score),
                   ("pwr", default_score), ("guts", default_score),
                   ("wit", default_score)]
    | .table m => m
  [("spd", (min_score_config.lookup "spd").getD 1),
   ("sta", (min_score_config.lookup "sta").getD 1),
   ("pwr", (min_score_config.lookup "pwr").getD 1),
   ("guts", (min_score_config.lookup "guts").getD 1),
   ("wit", (min_score_config.lookup "wit").getD 1)]

/-- Translation of `priority_stat.index(k) if k in priority_stat else len(priority_stat)`
(`List.indexOf` returns the length when the element is absent, exactly as
the Python expression does). -/
def stat_priority_index (priority_stat : List String) (k : String) : Nat :=
  priority_stat.indexOf k

/-- The key `sort_key(item) = (-v.get('score', 0), priority_index)` compared
ascending: the total preorder that `sorted` orders the items by. -/
def sort_key_le (priority_stat : List String) (a b : String × TrainData) : Prop :=
  b.2.scoreD < a.2.scoreD ∨
    (a.2.scoreD = b.2.scoreD ∧
      stat_priority_index priority_stat a.1 ≤ stat_priority_index priority_stat b.1)

instance (p : List String) : DecidableRel (sort_key_le p) := fun a b => by
  unfold sort_key_le; infer_instance

instance (p : List String) : IsTotal (String × TrainData) (sort_key_le p) := by
  constructor
  intro a b
  rcases lt_trichotomy a.2.scoreD b.2.scoreD with h | h | h
  · exact Or.inr (Or.inl h)
  · rcases Nat.le_total (stat_priority_index p a.1) (stat_priority_index p b.1) with h2 | h2
    · exact Or.inl (Or.inr ⟨h, h2⟩)
    · exact Or.inr (Or.inr ⟨h.symm, h2⟩)
  · exact Or.inl (Or.inl h)

instance (p : List String) : IsTrans (String × TrainData) (sort_key_le p) := by
  constructor
  intro a b c hab hbc
  rcases hab with hab | ⟨hab, hab2⟩ <;> rcases hbc with hbc | ⟨hbc, hbc2⟩
  · exact Or.inl (hbc.trans hab)
  · exact Or.inl (hbc ▸ hab)
  · exact Or.inl (hab ▸ hbc)
  · exact Or.inr ⟨hab.trans hbc, hab2.trans hbc2⟩

/-- The `safe_options` comprehension: keep entries with
`v.get('failure', 100) <= max_failure`. -/
def safe_options (config : TrainConfig) (training_results : TrainResults) : TrainResults :=
  training_results.filter fun p => decide (p.2.failureD ≤ config.maximum_failure.getD 15)

/-- The `capped_options` stage: when `current_stats` is falsy the stat-cap filter is
skipped, otherwise `filter_by_stat_caps` is applied to `safe_options`. -/
def capped_options (stat_caps : StatMap) (config : TrainConfig)
    (training_results : TrainResults) (current_stats : StatMap) : TrainResults :=
  if current_stats.isEmpty then safe_options config training_results
  else filter_by_stat_caps stat_caps (safe_options config training_results) current_stats

/-- The `valid_options` stage: drop entries whose `v.get('score', 0)` is below
`min_scores.get(k, 1.0)`. -/
def valid_options (stat_caps : StatMap) (config : TrainConfig)
    (training_results : TrainResults) (current_stats : StatMap) : TrainResults :=
  (capped_options stat_caps config training_results current_stats).filter fun p =>
    ! decide (p.2.scoreD < ((min_scores config).lookup p.1).getD 1)

/-- Translation of `src/core/Ura/training_handling.py`, `choose_best_training`.
Returns `sorted_options[0][0]`, with the early `return None` on each empty
intermediate dict.  Python's `sorted` is a stable sort by `sort_key`; it is
modelled by the stable `List.insertionSort` under the same total preorder. -/
def choose_best_training (stat_caps : StatMap) (training_results : TrainResults)
    (config : TrainConfig) (current_stats : StatMap) : Option String :=
  if training_results.isEmpty then none
  else
    let priority_stat := config.priority_stat.getD ["spd", "sta", "wit", "pwr", "guts"]
    if (safe_options config training_results).isEmpty then none
    else if (capped_options stat_caps config training_results current_stats).isEmpty then none
    else
      let valid := valid_options stat_caps config training_results current_stats
      if valid.isEmpty then none
      else ((valid.insertionSort (sort_key_le priority_stat)).head?).map Prod.fst

end Ura

/-- One entry of a `support_detail` value list; the code reads
`entry['bond_level']` unconditionally. -/
structure SupportEntry where
  bond_level : Int
deriving DecidableEq, Repr

/-- Type of `support_detail`: dict card-type → list of entries. -/
abbrev SupportDetail := List (String × List SupportEntry)

/-- The `scoring_rules` dict of `training_score.json`: each weight is
read as `scoring_rules.get(name, {}).get("points", default)`, hence the
`Option` fields carrying absence. -/
structure ScoringRules where
  rainbow_support : Option ℚ := none
  not_rainbow_support_low : Option ℚ := none
  not_rainbow_support_high : Option ℚ := none
  hint : Option ℚ := none
deriving DecidableEq

/-- The hard-coded fallback table used when `training_score.json` is
missing or unreadable. -/
def default_scoring_rules : ScoringRules :=
  { rainbow_support := some 1
    not_rainbow_support_low := some (7/10)
    not_rainbow_support_high := some 0
    hint := some (3/10) }

/-- Rounding `round(x, 2)`: round to the nearest multiple of `1/100` (Python's
banker tie-breaking differs only at exact half-cent ties, which the
weight sums of interest never hit). -/
def round2 (q : ℚ) : ℚ := (round (q * 100) : ℤ) / 100

/-- The per-card contribution inside the nested loops: `rainbow_support`
when `card_type == training_type and level >= 4`, else
`not_rainbow_support_low` when `level < 4`, else
`not_rainbow_support_high`, each with its hard-coded `get` default. -/
def card_points (scoring_rules : ScoringRules) (training_type card_type : String)
    (level : Int) : ℚ :=
  if card_type = training_type ∧ 4 ≤ level then scoring_rules.rainbow_support.getD 1
  else if level < 4 then scoring_rules.not_rainbow_support_low.getD (7/10)
  else scoring_rules.not_rainbow_support_high.getD 0

namespace Ura

/-- Translation of `src/core/Ura/training_handling.py`, `calculate_training_score`.
The JSON-file read is I/O; the resulting `scoring_rules` table (or the
fallback `default_scoring_rules`) is passed in explicitly.  The nested
`for` loops accumulating `score` become nested folds. -/
def calculate_training_score (scoring_rules : ScoringRules)
    (support_detail : SupportDetail) (hint_found : Bool)
    (training_type : String) : ℚ :=
  let score : ℚ :=
    support_detail.foldl
      (fun acc p =>
        p.2.foldl (fun acc2 entry =>
          acc2 + card_points scoring_rules training_type p.1 entry.bond_level) acc)
      0
  let score := if hint_found then score + scoring_rules.hint.getD (3/10) else score
  round2 score

end Ura

namespace Unity

/-- Modelled from the spec: `core.Unity.logic.filter_by_stat_caps` is
imported by the Unity `choose_best_training` but the module
`core/Unity/logic.py` is not present in the source tree; the spec's
selector step (2) — "drop options whose stat is already at/above a
configured cap" — is the behaviour modelled here, with the same
configured-cap lookup as the Ura mode. -/
def filter_by_stat_caps (stat_caps : StatMap) (results : TrainResults)
    (current_stats : StatMap) : TrainResults :=
  results.filter fun p =>
    decide ((current_stats.lookup p.1).getD 0 < (stat_caps.lookup p.1).getD 1200)

/-- The `capped_options` stage of the Unity selector (same falsy-skip guard). -/
def capped_options (stat_caps : StatMap) (config : TrainConfig)
    (training_results : TrainResults) (current_stats : StatMap) : TrainResults :=
  if current_stats.isEmpty then Ura.safe_options config training_results
  else filter_by_stat_caps stat_caps (Ura.safe_options config training_results) current_stats

/-- The `valid_options` stage of the Unity selector. -/
def valid_options (stat_caps : StatMap) (config : TrainConfig)
    (training_results : TrainResults) (current_stats : StatMap) : TrainResults :=
  (capped_options stat_caps config training_results current_stats).filter fun p =>
    ! decide (p.2.scoreD < ((Ura.min_scores config).lookup p.1).getD 1)

/-- Translation of `src/core/Unity/training_handling.py`, `choose_best_training`: the
body is textually identical to the Ura one apart from the
`filter_by_stat_caps` import.  The config parsing (`max_failure`,
`min_scores`, `priority_stat`) and the `safe_options` comprehension are
line-for-line the same code, so the Ura translations are reused. -/
def choose_best_training (stat_caps : StatMap) (training_results : TrainResults)
    (config : TrainConfig) (current_stats : StatMap) : Option String :=
  if training_results.isEmpty then none
  else
    let priority_stat := config.priority_stat.getD ["spd", "sta", "wit", "pwr", "guts"]
    if (Ura.safe_options config training_results).isEmpty then none
    else if (capped_options stat_caps config training_results current_stats).isEmpty then none
    else
      let valid := valid_options stat_caps config training_results current_stats
      if valid.isEmpty then none
      else ((valid.insertionSort (Ura.sort_key_le priority_stat)).head?).map Prod.fst

end Unity

/-- One OCR attempt of `check_failure`, abstracting what pytesseract
returns on the cropped region: `candidates` are the integer captures of
the three percentage regexes in the order the pattern loop tries them,
and `conf` is `avg_confidence` (the OCR word confidences averaged and
divided by 100, or `0.0` when none). -/
structure OCRAttempt where
  candidates : List Int
  conf : ℚ
deriving DecidableEq

namespace Ura

/-- One iteration of the pattern loop: the first captured value with
`0 <= rate <= 100` is returned together with `avg_confidence` provided
the confidence floor is met; since `avg_confidence` is fixed for the
attempt, a below-floor attempt accepts nothing. -/
def attempt_extract (threshold : ℚ) (a : OCRAttempt) : Option (Int × ℚ) :=
  match a.candidates.find? (fun r => decide (0 ≤ r) && decide (r ≤ 100)) with
  | some rate => if threshold ≤ a.conf then some (rate, a.conf) else none
  | none => none

/-- Translation of `src/core/Ura/training_handling.py`, `check_failure`.  The screenshot
capture and OCR are I/O; the readings of the three white-mask attempts
(confidence floor `0.8`) and the three yellow-mask attempts (floor
`0.9`) are passed in explicitly.  When every attempt fails, DEBUG_MODE
raises a `RuntimeError` (modelled by `.error`; the diagnostic-image save
is a file-system side effect outside the embedding), otherwise the safe
fallback `(100, 0.0)` is returned. -/
def check_failure (white_attempts yellow_attempts : List OCRAttempt)
    (debug_mode : Bool) : Except String (Int × ℚ) :=
  match (white_attempts.take 3).findSome? (attempt_extract (4/5)) with
  | some res => .ok res
  | none =>
    match (yellow_attempts.take 3).findSome? (attempt_extract (9/10)) with
    | some res => .ok res
    | none =>
      if debug_mode then .error "Failure rate extraction failed"
      else .ok (100, 0)

end Ura

/-- The Best-Training Selector pipeline exactly as the spec words it:
(1) drop options whose `failure_chance` exceeds the configured ceiling;
(2) drop options whose stat is already at/above its configured cap given
`current_stats`; (3) drop options whose score is below the per-stat
configured minimum; (4) sort the survivors by score descending with the
configured priority order as tie-break; (5) return the top stat, or
`none` if nothing survives (an empty input yields `none` through the
same pipeline). -/
def spec_choose_best (stat_caps : StatMap) (training_results : TrainResults)
    (config : TrainConfig) (current_stats : StatMap) : Option String :=
  let priority_stat := config.priority_stat.getD ["spd", "sta", "wit", "pwr", "guts"]
  let step1 := training_results.filter fun p =>
    decide (p.2.failureD ≤ config.maximum_failure.getD 15)
  let step2 := step1.filter fun p =>
    decide ((current_stats.lookup p.1).getD 0 < (stat_caps.lookup p.1).getD 1200)
  let step3 := step2.filter fun p =>
    ! decide (p.2.scoreD < ((Ura.min_scores config).lookup p.1).getD 1)
  ((step3.insertionSort (Ura.sort_key_le priority_stat)).head?).map Prod.fst

/-- The pipeline of `spec_choose_best` amended at step (2) as the code
forces: the stat-cap filter is skipped entirely when `current_stats` is
empty. -/
def spec_choose_best_amended (stat_caps : StatMap) (training_results : TrainResults)
    (config : TrainConfig) (current_stats : StatMap) : Option String :=
  let priority_stat := config.priority_stat.getD ["spd", "sta", "wit", "pwr", "guts"]
  let step1 := training_results.filter fun p =>
    decide (p.2.failureD ≤ config.maximum_failure.getD 15)
  let step2 :=
    if current_stats.isEmpty then step1
    else step1.filter fun p =>
      decide ((current_stats.lookup p.1).getD 0 < (stat_caps.lookup p.1).getD 1200)
  let step3 := step2.filter fun p =>
    ! decide (p.2.scoreD < ((Ura.min_scores config).lookup p.1).getD 1)
  ((step3.insertionSort (Ura.sort_key_le priority_stat)).head?).map Prod.fst

/-- The Training Scorer contract as the spec words it: the sum, over all
detected support cards, of the per-card contribution, plus the hint bonus
added exactly once, rounded to two decimals. -/
def spec_score (scoring_rules : ScoringRules) (support_detail : SupportDetail)
    (hint_found : Bool) (training_type : String) : ℚ :=
  round2
    ((support_detail.map fun p =>
        (p.2.map fun e => card_points scoring_rules training_type p.1 e.bond_level).sum).sum
      + (if hint_found then scoring_rules.hint.getD (3/10) else 0))

-- sanity checks on small concrete inputs
example :
    Ura.choose_best_training [] [("spd", ⟨some 10, some 2⟩), ("sta", ⟨some 5, some 3⟩)]
      {} [] = some "sta" := by decide

example :
    Ura.choose_best_training [] [("spd", ⟨some 20, some 2⟩)]
      { maximum_failure := some 15 } [] = none := by decide

example :
    Ura.choose_best_training [("spd", 100)] [("spd", ⟨some 0, some 5⟩)]
      {} [("spd", 100)] = none := by decide

example :
    Ura.calculate_training_score default_scoring_rules
      [("spd", [⟨5⟩])] true "spd" = 13/10 := by with_unfolding_all decide

example :
    Ura.calculate_training_score default_scoring_rules
      [("spd", [⟨3⟩, ⟨5⟩]), ("wit", [⟨2⟩])] false "spd" = 24/10 := by
  with_unfolding_all decide

example :
    Ura.check_failure [⟨[150, 29], 85/100⟩] [] false = .ok (29, 85/100) := by
  with_unfolding_all rfl

example :
    Ura.check_failure [⟨[29], 1/2⟩] [⟨[], 1⟩] false = .ok (100, 0) := by
  with_unfolding_all rfl

example :
    Ura.check_failure [] [] true = .error "Failure rate extraction failed" := by
  with_unfolding_all rfl

/-! ### Helper lemmas -/

/-- In a list with `Nodup` keys (a Python dict), one key maps to one value. -/
theorem key_unique {α β : Type} [DecidableEq α] :
    ∀ {l : List (α × β)}, (l.map Prod.fst).Nodup →
      ∀ {s : α} {a b : β}, (s, a) ∈ l → (s, b) ∈ l → a = b := by
  intro l
  induction l with
  | nil => simp
  | cons p t ih =>
    intro hnd s a b ha hb
    simp only [List.map_cons, List.nodup_cons] at hnd
    rcases List.mem_cons.mp ha with ha' | ha' <;> rcases List.mem_cons.mp hb with hb' | hb'
    · rw [← ha'] at hb'; exact congrArg Prod.snd hb'.symm
    · exact absurd (List.mem_map_of_mem Prod.fst hb') (by rw [← ha'] at hnd; exact hnd.1)
    · exact absurd (List.mem_map_of_mem Prod.fst ha') (by rw [← hb'] at hnd; exact hnd.1)
    · exact ih hnd.2 ha' hb'

theorem Ura.valid_options_eq_nil_of_safe {stat_caps : StatMap} {config : TrainConfig}
    {training_results : TrainResults} {current_stats : StatMap}
    (h : Ura.safe_options config training_results = []) :
    Ura.valid_options stat_caps config training_results current_stats = [] := by
  unfold Ura.valid_options Ura.capped_options
  rw [h]
  split <;> simp [Ura.filter_by_stat_caps]

theorem Ura.valid_options_eq_nil_of_capped {stat_caps : StatMap} {config : TrainConfig}
    {training_results : TrainResults} {current_stats : StatMap}
    (h : Ura.capped_options stat_caps config training_results current_stats = []) :
    Ura.valid_options stat_caps config training_results current_stats = [] := by
  unfold Ura.valid_options
  rw [h]
  rfl

/-- Normalisation of `choose_best_training`: the early `return None` branches
coincide with taking the head of the sorted `valid_options`. -/
theorem Ura.choose_eq (stat_caps : StatMap) (training_results : TrainResults)
    (config : TrainConfig) (current_stats : StatMap) :
    Ura.choose_best_training stat_caps training_results config current_stats
      = ((Ura.valid_options stat_caps config training_results current_stats).insertionSort
          (Ura.sort_key_le (config.priority_stat.getD ["spd", "sta", "wit", "pwr", "guts"]))).head?.map
            Prod.fst := by
  unfold Ura.choose_best_training
  by_cases h1 : training_results.isEmpty
  · rw [if_pos h1]
    rw [Ura.valid_options_eq_nil_of_safe (by rw [List.isEmpty_iff.mp h1]; rfl)]
    rfl
  · rw [if_neg h1]
    by_cases h2 : (Ura.safe_options config training_results).isEmpty
    · rw [if_pos h2, Ura.valid_options_eq_nil_of_safe (List.isEmpty_iff.mp h2)]
      rfl
    · rw [if_neg h2]
      by_cases h3 : (Ura.capped_options stat_caps config training_results current_stats).isEmpty
      · rw [if_pos h3, Ura.valid_options_eq_nil_of_capped (List.isEmpty_iff.mp h3)]
        rfl
      · rw [if_neg h3]
        by_cases h4 : (Ura.valid_options stat_caps config training_results current_stats).isEmpty
        · rw [if_pos h4, List.isEmpty_iff.mp h4]
          rfl
        · rw [if_neg h4]

/-- A survivor of all three filters is an entry of `training_results`
that passed the failure ceiling. -/
theorem Ura.mem_safe_of_mem_valid {stat_caps : StatMap} {config : TrainConfig}
    {training_results : TrainResults} {current_stats : StatMap} {p : String × TrainData}
    (h : p ∈ Ura.valid_options stat_caps config training_results current_stats) :
    p ∈ Ura.safe_options config training_results := by
  unfold Ura.valid_options at h
  have h2 := (List.mem_filter.mp h).1
  unfold Ura.capped_options at h2
  split at h2
  · exact h2
  · exact (List.mem_filter.mp h2).1

theorem foldl_add_map_sum {α : Type} (f : α → ℚ) :
    ∀ (l : List α) (init : ℚ),
      l.foldl (fun acc x => acc + f x) init = init + (l.map f).sum
  | [], init => by simp
  | x :: t, init => by
    simp only [List.foldl_cons, List.map_cons, List.sum_cons]
    rw [foldl_add_map_sum f t]
    ring

/-- The imperative nested accumulation of `calculate_training_score`
equals the declarative per-card sum. -/
theorem Ura.calculate_training_score_eq (scoring_rules : ScoringRules)
    (support_detail : SupportDetail) (hint_found : Bool) (training_type : String) :
    Ura.calculate_training_score scoring_rules support_detail hint_found training_type
      = round2
          ((support_detail.map fun p =>
              (p.2.map fun e =>
                card_points scoring_rules training_type p.1 e.bond_level).sum).sum
            + (if hint_found then scoring_rules.hint.getD (3/10) else 0)) := by
  unfold Ura.calculate_training_score
  have h : ∀ (sd : SupportDetail) (init : ℚ),
      sd.foldl
          (fun acc p =>
            p.2.foldl (fun acc2 e =>
              acc2 + card_points scoring_rules training_type p.1 e.bond_level) acc)
          init
        = init + (sd.map fun p =>
            (p.2.map fun e =>
              card_points scoring_rules training_type p.1 e.bond_level).sum).sum := by
    intro sd
    induction sd with
    | nil => intro init; simp
    | cons p t ih =>
      intro init
      simp only [List.foldl_cons, List.map_cons, List.sum_cons]
      rw [foldl_add_map_sum, ih]
      ring
  rw [h]
  cases hint_found <;> simp

theorem round2_mono {a b : ℚ} (h : a ≤ b) : round2 a ≤ round2 b := by
  unfold round2
  have h1 : round (a * 100) ≤ round (b * 100) := by
    rw [round_eq, round_eq]
    exact Int.floor_mono (by linarith)
  have h2 : ((round (a * 100) : ℤ) : ℚ) ≤ ((round (b * 100) : ℤ) : ℚ) := by
    exact_mod_cast h1
  linarith

/-- For a card of the trainee's own type, the per-card contribution is
non-decreasing in the bond level as soon as the low-bond weight does not
exceed the rainbow weight. -/
theorem card_points_mono {scoring_rules : ScoringRules} {ty : String} {b1 b2 : Int}
    (hlr : scoring_rules.not_rainbow_support_low.getD (7/10)
            ≤ scoring_rules.rainbow_support.getD 1)
    (hb : b1 ≤ b2) :
    card_points scoring_rules ty ty b1 ≤ card_points scoring_rules ty ty b2 := by
  unfold card_points
  rcases le_or_lt 4 b1 with h4 | h4
  · have h5 : 4 ≤ b2 := le_trans h4 hb
    simp [h4, h5]
  · rcases le_or_lt 4 b2 with h5 | h5
    · rw [if_neg (fun hc : ty = ty ∧ 4 ≤ b1 => absurd hc.2 (not_le.mpr h4)),
        if_pos (And.intro rfl h5), if_pos h4]
      exact hlr
    · simp [not_le.mpr h4, not_le.mpr h5, h4, h5]

/-- A value accepted by one OCR attempt came out of the in-range pattern
filter, hence lies in `0..100`. -/
theorem Ura.attempt_extract_range {th : ℚ} {a : OCRAttempt} {res : Int × ℚ}
    (h : Ura.attempt_extract th a = some res) : 0 ≤ res.1 ∧ res.1 ≤ 100 := by
  unfold Ura.attempt_extract at h
  cases hfind : a.candidates.find? (fun r => decide (0 ≤ r) && decide (r ≤ 100)) with
  | none => rw [hfind] at h; exact absurd h (by simp)
  | some rt =>
    rw [hfind] at h
    have hp := List.find?_some hfind
    simp only [Bool.and_eq_true, decide_eq_true_eq] at hp
    dsimp only at h
    by_cases hc : th ≤ a.conf
    · rw [if_pos hc] at h
      cases h
      exact hp
    · rw [if_neg hc] at h
      exact absurd h (by simp)

theorem Ura.findSome?_attempt_range {th : ℚ} {l : List OCRAttempt} {res : Int × ℚ}
    (h : l.findSome? (Ura.attempt_extract th) = some res) : 0 ≤ res.1 ∧ res.1 ≤ 100 := by
  obtain ⟨a, _, hea⟩ := List.exists_of_findSome?_eq_some h
  exact Ura.attempt_extract_range hea

/-! ### The claims -/

/-- C1: `choose_best_training` is claimed to equal the spec's five-step
pipeline.  It does not: with empty `current_stats` the code skips the
stat-cap step entirely, while the pipeline's step (2) still drops a stat
whose configured cap is `0` (the missing current value reads as `0`).
This closed computation exhibits the divergence. -/
theorem claim_C1_pipeline_counterexample :
    Ura.choose_best_training [("spd", 0)] [("spd", ⟨some 0, some 5⟩)] {} [] = some "spd"
      ∧ spec_choose_best [("spd", 0)] [("spd", ⟨some 0, some 5⟩)] {} [] = none := by
  constructor <;> with_unfolding_all decide

/-- C1 (amended): `choose_best_training` returns exactly the result of the
spec's pipeline with step (2) amended to be skipped entirely when
`current_stats` is empty; in particular empty `training_results` yields
`none`. -/
theorem claim_C1_pipeline_amended (stat_caps : StatMap) (training_results : TrainResults)
    (config : TrainConfig) (current_stats : StatMap) :
    Ura.choose_best_training stat_caps training_results config current_stats
      = spec_choose_best_amended stat_caps training_results config current_stats := by
  rw [Ura.choose_eq]
  rfl

/-- C2: `calculate_training_score` returns the sum over all detected
support cards of the per-card points (rainbow when type matches and bond
`≥ 4`, else low-bond when bond `< 4`, else high-bond), plus the hint
points exactly once when a hint was detected, rounded to 2 decimals —
the spec's scorer contract. -/
theorem claim_C2_score_formula (scoring_rules : ScoringRules)
    (support_detail : SupportDetail) (hint_found : Bool) (training_type : String) :
    Ura.calculate_training_score scoring_rules support_detail hint_found training_type
      = spec_score scoring_rules support_detail hint_found training_type :=
  Ura.calculate_training_score_eq scoring_rules support_detail hint_found training_type

/-- C3: whenever `choose_best_training` returns a stat, that stat's entry
in `training_results` has a failure chance within the configured
maximum-failure ceiling. -/
theorem claim_C3_failure_ceiling (stat_caps : StatMap) (training_results : TrainResults)
    (config : TrainConfig) (current_stats : StatMap) (s : String) (d : TrainData)
    (hnd : (training_results.map Prod.fst).Nodup)
    (hs : Ura.choose_best_training stat_caps training_results config current_stats = some s)
    (hd : (s, d) ∈ training_results) :
    d.failureD ≤ config.maximum_failure.getD 15 := by
  rw [Ura.choose_eq] at hs
  obtain ⟨q, hq, hfst⟩ := Option.map_eq_some'.mp hs
  obtain ⟨ys, hys⟩ := List.head?_eq_some_iff.mp hq
  have hmem : q ∈ Ura.valid_options stat_caps config training_results current_stats := by
    rw [← List.mem_insertionSort
      (r := Ura.sort_key_le (config.priority_stat.getD ["spd", "sta", "wit", "pwr", "guts"]))]
    rw [hys]
    exact List.mem_cons_self _ _
  have hsafe := Ura.mem_safe_of_mem_valid hmem
  unfold Ura.safe_options at hsafe
  obtain ⟨hintr, hpred⟩ := List.mem_filter.mp hsafe
  have hqtr : (s, q.2) ∈ training_results := by rw [← hfst]; exact hintr
  have hdq : d = q.2 := key_unique hnd hd hqtr
  rw [hdq]
  exact of_decide_eq_true hpred

/-- Witness for C3 at a concrete input. -/
theorem claim_C3_failure_ceiling_witness :
    (⟨some 10, some 2⟩ : TrainData).failureD ≤ ({} : TrainConfig).maximum_failure.getD 15 :=
  claim_C3_failure_ceiling [] [("spd", ⟨some 10, some 2⟩)] {} [] "spd" ⟨some 10, some 2⟩
    (by decide) (by with_unfolding_all decide) (by decide)

/-- C4: the claim that a returned stat's current value is always strictly
below its configured cap fails when `current_stats` is empty: the code
skips cap filtering there, so a stat whose cap is `0` (at/above the
defaulted current value `0`) can still be returned. -/
theorem claim_C4_cap_counterexample :
    Ura.choose_best_training [("spd", 0)] [("spd", ⟨some 5, some 5⟩)] {} [] = some "spd"
      ∧ ¬ ((([] : StatMap).lookup "spd").getD 0
            < (([("spd", 0)] : StatMap).lookup "spd").getD 1200) := by
  constructor
  · with_unfolding_all decide
  · with_unfolding_all decide

/-- C4 (amended): whenever `current_stats` is non-empty, a stat returned
by `choose_best_training` has its current value (defaulting to `0` when
unread) strictly below its configured cap (defaulting to `1200`). -/
theorem claim_C4_cap_amended (stat_caps : StatMap) (training_results : TrainResults)
    (config : TrainConfig) (current_stats : StatMap) (s : String)
    (hne : current_stats ≠ [])
    (hs : Ura.choose_best_training stat_caps training_results config current_stats = some s) :
    (current_stats.lookup s).getD 0 < (stat_caps.lookup s).getD 1200 := by
  rw [Ura.choose_eq] at hs
  obtain ⟨q, hq, hfst⟩ := Option.map_eq_some'.mp hs
  obtain ⟨ys, hys⟩ := List.head?_eq_some_iff.mp hq
  have hmem : q ∈ Ura.valid_options stat_caps config training_results current_stats := by
    rw [← List.mem_insertionSort
      (r := Ura.sort_key_le (config.priority_stat.getD ["spd", "sta", "wit", "pwr", "guts"]))]
    rw [hys]
    exact List.mem_cons_self _ _
  unfold Ura.valid_options at hmem
  have hcap := (List.mem_filter.mp hmem).1
  unfold Ura.capped_options at hcap
  have hF : current_stats.isEmpty = false := by
    cases current_stats with
    | nil => exact absurd rfl hne
    | cons a t => rfl
  rw [hF] at hcap
  simp only [Bool.false_eq_true, if_false] at hcap
  unfold Ura.filter_by_stat_caps at hcap
  have hpred := (List.mem_filter.mp hcap).2
  rw [hfst] at hpred
  exact of_decide_eq_true hpred

/-- Witness for the amended C4 at a concrete input. -/
theorem claim_C4_cap_amended_witness :
    (([("spd", 100)] : StatMap).lookup "spd").getD 0
      < (([] : StatMap).lookup "spd").getD 1200 :=
  claim_C4_cap_amended [] [("spd", ⟨some 10, some 2⟩)] {} [("spd", 100)] "spd"
    (by decide) (by with_unfolding_all decide)

/-- C5: among the survivors of all three filters, an option that ties or
beats every other survivor — strictly higher score, or equal score and
an earlier place in the configured priority list — is the one
`choose_best_training` returns. -/
theorem claim_C5_priority_tiebreak (stat_caps : StatMap) (training_results : TrainResults)
    (config : TrainConfig) (current_stats : StatMap) (s : String) (d : TrainData)
    (hmem : (s, d) ∈ Ura.valid_options stat_caps config training_results current_stats)
    (hbest : ∀ p ∈ Ura.valid_options stat_caps config training_results current_stats,
      p.1 ≠ s →
        p.2.scoreD < d.scoreD
          ∨ (p.2.scoreD = d.scoreD
              ∧ Ura.stat_priority_index
                  (config.priority_stat.getD ["spd", "sta", "wit", "pwr", "guts"]) s
                < Ura.stat_priority_index
                    (config.priority_stat.getD ["spd", "sta", "wit", "pwr", "guts"]) p.1)) :
    Ura.choose_best_training stat_caps training_results config current_stats = some s := by
  rw [Ura.choose_eq]
  cases hsort : (Ura.valid_options stat_caps config training_results current_stats).insertionSort
      (Ura.sort_key_le (config.priority_stat.getD ["spd", "sta", "wit", "pwr", "guts"])) with
  | nil =>
    exfalso
    have hm := (List.mem_insertionSort
      (r := Ura.sort_key_le (config.priority_stat.getD ["spd", "sta", "wit", "pwr", "guts"]))).mpr hmem
    rw [hsort] at hm
    exact absurd hm (List.not_mem_nil _)
  | cons h t =>
    simp only [List.head?_cons, Option.map_some']
    by_cases heq : h.1 = s
    · rw [heq]
    · exfalso
      have hhmem : h ∈ Ura.valid_options stat_caps config training_results current_stats := by
        rw [← List.mem_insertionSort
          (r := Ura.sort_key_le (config.priority_stat.getD ["spd", "sta", "wit", "pwr", "guts"]))]
        rw [hsort]
        exact List.mem_cons_self _ _
      have hstrict := hbest h hhmem heq
      have hsd : (s, d) ∈ h :: t := by
        rw [← hsort]
        exact (List.mem_insertionSort
          (r := Ura.sort_key_le (config.priority_stat.getD ["spd", "sta", "wit", "pwr", "guts"]))).mpr hmem
      rcases List.mem_cons.mp hsd with he | hin
      · exact heq (congrArg Prod.fst he.symm)
      · have hsorted := List.sorted_insertionSort
          (r := Ura.sort_key_le (config.priority_stat.getD ["spd", "sta", "wit", "pwr", "guts"]))
          (Ura.valid_options stat_caps config training_results current_stats)
        rw [hsort] at hsorted
        have hr := (List.sorted_cons.mp hsorted).1 _ hin
        simp only [Ura.sort_key_le] at hr
        rcases hstrict with hlt | ⟨heq2, hidx⟩ <;> rcases hr with hr | ⟨hr1, hr2⟩
        · exact absurd hr (not_lt.mpr (le_of_lt hlt))
        · exact absurd hr1 (ne_of_lt hlt)
        · rw [heq2] at hr
          exact lt_irrefl _ hr
        · exact absurd hr2 (not_le.mpr hidx)

/-- Witness for C5 at a concrete input: equal scores, `spd` earlier than
`sta` in the default priority list, so `spd` is returned. -/
theorem claim_C5_priority_tiebreak_witness :
    Ura.choose_best_training [] [("sta", ⟨some 0, some 2⟩), ("spd", ⟨some 0, some 2⟩)] {} []
      = some "spd" :=
  claim_C5_priority_tiebreak [] [("sta", ⟨some 0, some 2⟩), ("spd", ⟨some 0, some 2⟩)] {} []
    "spd" ⟨some 0, some 2⟩
    (by with_unfolding_all decide) (by with_unfolding_all decide)

/-- C6: raising the bond level of a support card whose type matches the
trainee stat, all other inputs fixed, never lowers
`calculate_training_score`, provided the configured low-bond weight does
not exceed the rainbow weight (true of the hard-coded defaults
`0.7 ≤ 1.0`). -/
theorem claim_C6_bond_monotone (scoring_rules : ScoringRules) (pre post : SupportDetail)
    (es1 es2 : List SupportEntry) (hint_found : Bool) (training_type : String) (b1 b2 : Int)
    (hlr : scoring_rules.not_rainbow_support_low.getD (7/10)
            ≤ scoring_rules.rainbow_support.getD 1)
    (hb : b1 ≤ b2) :
    Ura.calculate_training_score scoring_rules
        (pre ++ (training_type, es1 ++ ⟨b1⟩ :: es2) :: post) hint_found training_type
      ≤ Ura.calculate_training_score scoring_rules
          (pre ++ (training_type, es1 ++ ⟨b2⟩ :: es2) :: post) hint_found training_type := by
  rw [Ura.calculate_training_score_eq, Ura.calculate_training_score_eq]
  apply round2_mono
  apply add_le_add_right
  simp only [List.map_append, List.sum_append, List.map_cons, List.sum_cons]
  have hc := @card_points_mono scoring_rules training_type b1 b2 hlr hb
  linarith

/-- Witness for C6 at a concrete input with the default weights. -/
theorem claim_C6_bond_monotone_witness :
    Ura.calculate_training_score default_scoring_rules [("spd", [⟨3⟩])] false "spd"
      ≤ Ura.calculate_training_score default_scoring_rules [("spd", [⟨4⟩])] false "spd" :=
  claim_C6_bond_monotone default_scoring_rules [] [] [] [] false "spd" 3 4
    (by with_unfolding_all decide) (by decide)

/-- C7: when every OCR attempt fails to extract a failure rate,
`check_failure` returns the safe default `(100, 0.0)` in normal mode and
raises (after saving a diagnostic image, a file-system effect outside the
embedding) in debug mode; and any rate it returns lies in `0..100`. -/
theorem claim_C7_check_failure (white_attempts yellow_attempts : List OCRAttempt) :
    ((∀ a ∈ white_attempts.take 3, Ura.attempt_extract (4/5) a = none) →
      (∀ a ∈ yellow_attempts.take 3, Ura.attempt_extract (9/10) a = none) →
        Ura.check_failure white_attempts yellow_attempts false = .ok (100, 0)
          ∧ Ura.check_failure white_attempts yellow_attempts true
              = .error "Failure rate extraction failed")
    ∧ ∀ (debug_mode : Bool) (rate : Int) (conf : ℚ),
        Ura.check_failure white_attempts yellow_attempts debug_mode = .ok (rate, conf) →
          0 ≤ rate ∧ rate ≤ 100 := by
  constructor
  · intro hw hy
    have hw' : (white_attempts.take 3).findSome? (Ura.attempt_extract (4/5)) = none :=
      List.findSome?_eq_none_iff.mpr hw
    have hy' : (yellow_attempts.take 3).findSome? (Ura.attempt_extract (9/10)) = none :=
      List.findSome?_eq_none_iff.mpr hy
    constructor <;> (unfold Ura.check_failure; rw [hw', hy']) <;> rfl
  · intro debug_mode rate conf hok
    unfold Ura.check_failure at hok
    cases hw : (white_attempts.take 3).findSome? (Ura.attempt_extract (4/5)) with
    | some res =>
      rw [hw] at hok
      have hres : res = (rate, conf) := by
        simpa using hok
      have := Ura.findSome?_attempt_range hw
      rw [hres] at this
      exact this
    | none =>
      rw [hw] at hok
      dsimp only at hok
      cases hy : (yellow_attempts.take 3).findSome? (Ura.attempt_extract (9/10)) with
      | some res =>
        rw [hy] at hok
        have hres : res = (rate, conf) := by
          simpa using hok
        have := Ura.findSome?_attempt_range hy
        rw [hres] at this
        exact this
      | none =>
        rw [hy] at hok
        dsimp only at hok
        cases debug_mode with
        | false =>
          simp only [Bool.false_eq_true, if_false] at hok
          have : (100, (0 : ℚ)) = (rate, conf) := by simpa using hok
          have hr : rate = 100 := (congrArg Prod.fst this).symm
          rw [hr]
          exact ⟨by decide, by decide⟩
        | true =>
          simp only [if_true] at hok
          exact absurd hok (by simp)

/-- Witness for C7: a white attempt with an out-of-range capture and a
below-floor yellow attempt both fail, so the fallback and the debug raise
are observed. -/
theorem claim_C7_check_failure_witness :
    Ura.check_failure [⟨[150], 1⟩] [⟨[29], 1/2⟩] false = .ok (100, 0)
      ∧ Ura.check_failure [⟨[150], 1⟩] [⟨[29], 1/2⟩] true
          = .error "Failure rate extraction failed" :=
  (claim_C7_check_failure [⟨[150], 1⟩] [⟨[29], 1/2⟩]).1
    (by with_unfolding_all decide) (by with_unfolding_all decide)

/-- C8: with the hard-coded default weights, one matched-type card at
bond 5 plus a hint scores exactly rainbow + hint = 1.0 + 0.3 = 1.3. -/
theorem claim_C8_example_score :
    Ura.calculate_training_score default_scoring_rules [("spd", [⟨5⟩])] true "spd"
        = default_scoring_rules.rainbow_support.getD 1 + default_scoring_rules.hint.getD (3/10)
      ∧ Ura.calculate_training_score default_scoring_rules [("spd", [⟨5⟩])] true "spd"
          = 13/10 := by
  constructor <;> with_unfolding_all decide

/-- C9: the Ura-mode and Unity-mode `choose_best_training` are
extensionally equal on every input (with the Unity stat-cap filter
spec-modelled, since `core/Unity/logic.py` is absent from the sources). -/
theorem claim_C9_mode_equivalence (stat_caps : StatMap) (training_results : TrainResults)
    (config : TrainConfig) (current_stats : StatMap) :
    Unity.choose_best_training stat_caps training_results config current_stats
      = Ura.choose_best_training stat_caps training_results config current_stats := rfl

/-- C10: with empty (falsy) `current_stats` the stat-cap filtering step is
skipped entirely — the options surviving the failure filter all proceed,
and the configured caps cannot influence the choice. -/
theorem claim_C10_empty_stats_skip (stat_caps stat_caps' : StatMap)
    (training_results : TrainResults) (config : TrainConfig) :
    Ura.capped_options stat_caps config training_results []
        = Ura.safe_options config training_results
      ∧ Ura.choose_best_training stat_caps training_results config []
          = Ura.choose_best_training stat_caps' training_results config [] :=
  ⟨rfl, rfl⟩
